import Mathlib

/-!
Verification of the Constellations core (graph model, shortest-path engine,
route planner, step-wise simulator) against its natural-language specification.

The Python source is shallowly embedded: Python `dict`s become insertion-ordered
association lists, `float` becomes `Rat` (all arithmetic used by the code is
exact on the inputs considered), sets of small integer ids become ascending
lists (CPython iterates small-int sets in ascending hash order), exceptions
become `Except`, and unbounded loops are given explicit fuel that is provably
or evidently sufficient on the inputs considered.
-/

set_option maxRecDepth 8000

namespace Constellations

/-! ## Association lists (Python dict, insertion ordered) -/

/-- Python `d.get(k)`: value of the first (only) binding of `k`. -/
def alookup {κ α : Type} [DecidableEq κ] : List (κ × α) → κ → Option α
  | [], _ => none
  | (k', v) :: rest, k => if k = k' then some v else alookup rest k

/-- Python `d[k] = v`: replace the binding of `k` or append it at the end. -/
def aset {κ α : Type} [DecidableEq κ] : List (κ × α) → κ → α → List (κ × α)
  | [], k, v => [(k, v)]
  | (k', v') :: rest, k, v =>
    if k = k' then (k, v) :: rest else (k', v') :: aset rest k v

theorem alookup_aset_self {κ α : Type} [DecidableEq κ] (l : List (κ × α)) (k : κ) (v : α) :
    alookup (aset l k v) k = some v := by
  induction l with
  | nil => simp [aset, alookup]
  | cons p rest ih =>
    by_cases h : k = p.1
    · simp [aset, alookup, h]
    · simp [aset, alookup, h, ih]

theorem alookup_aset_ne {κ α : Type} [DecidableEq κ] (l : List (κ × α)) (k k' : κ) (v : α)
    (h : k' ≠ k) : alookup (aset l k v) k' = alookup l k' := by
  induction l with
  | nil => simp [aset, alookup, h]
  | cons p rest ih =>
    by_cases hk : k = p.1
    · subst hk
      simp [aset, alookup, h]
    · by_cases hk' : k' = p.1
      · simp [aset, alookup, hk, hk']
      · simp [aset, alookup, hk, hk', ih]

theorem mem_of_alookup_eq_some {κ α : Type} [DecidableEq κ] {l : List (κ × α)} {k : κ} {v : α}
    (h : alookup l k = some v) : (k, v) ∈ l := by
  induction l with
  | nil => simp [alookup] at h
  | cons p rest ih =>
    obtain ⟨k', v'⟩ := p
    by_cases hk : k = k'
    · subst hk
      simp [alookup] at h
      subst h
      exact List.mem_cons_self _ _
    · simp [alookup, hk] at h
      exact List.mem_cons_of_mem _ (ih h)

theorem alookup_isSome_of_mem {κ α : Type} [DecidableEq κ] {l : List (κ × α)} {k : κ} {v : α}
    (h : (k, v) ∈ l) : (alookup l k).isSome := by
  induction l with
  | nil => simp at h
  | cons p rest ih =>
    obtain ⟨k', v'⟩ := p
    rcases List.mem_cons.mp h with h' | h'
    · obtain ⟨h1, h2⟩ := Prod.mk.injEq .. ▸ h'
      simp [alookup, h1]
    · by_cases hk : k = k'
      · simp [alookup, hk]
      · simp [alookup, hk]
        exact ih h'

theorem mem_keys_of_alookup_eq_some {κ α : Type} [DecidableEq κ] {l : List (κ × α)} {k : κ}
    {v : α} (h : alookup l k = some v) : k ∈ l.map Prod.fst := by
  have := mem_of_alookup_eq_some h
  exact List.mem_map.mpr ⟨(k, v), this, rfl⟩

theorem mem_aset {κ α : Type} [DecidableEq κ] {l : List (κ × α)} {k : κ} {v : α} {p : κ × α}
    (h : p ∈ aset l k v) : p ∈ l ∨ p = (k, v) := by
  induction l with
  | nil =>
    simp [aset] at h
    right
    exact h
  | cons q rest ih =>
    obtain ⟨k', v'⟩ := q
    by_cases hk : k = k'
    · subst hk
      simp only [aset, if_pos rfl] at h
      rcases List.mem_cons.mp h with h' | h'
      · right; exact h'
      · left; exact List.mem_cons_of_mem _ h'
    · simp only [aset, if_neg hk] at h
      rcases List.mem_cons.mp h with h' | h'
      · left
        exact h' ▸ List.mem_cons_self _ _
      · rcases ih h' with h'' | h''
        · left; exact List.mem_cons_of_mem _ h''
        · right; exact h''

theorem alookup_append_of_isSome {κ α : Type} [DecidableEq κ] (l₁ l₂ : List (κ × α)) (k : κ)
    {v : α} (h : alookup l₁ k = some v) : alookup (l₁ ++ l₂) k = some v := by
  induction l₁ with
  | nil => simp [alookup] at h
  | cons p rest ih =>
    obtain ⟨k', v'⟩ := p
    by_cases hk : k = k'
    · simp [alookup, hk] at h ⊢
      exact h
    · simp [alookup, hk] at h ⊢
      exact ih h

theorem alookup_append_of_none {κ α : Type} [DecidableEq κ] (l₁ l₂ : List (κ × α)) (k : κ)
    (h : alookup l₁ k = none) : alookup (l₁ ++ l₂) k = alookup l₂ k := by
  induction l₁ with
  | nil => simp
  | cons p rest ih =>
    obtain ⟨k', v'⟩ := p
    by_cases hk : k = k'
    · simp [alookup, hk] at h
    · simp [alookup, hk] at h ⊢
      exact ih h

/-! ## Kernel-computable max and min on the rationals -/

/-- Python `max` on two rationals (the lattice `max` of Mathlib does not
reduce inside `decide`). -/
def rmax (a b : Rat) : Rat := if a ≤ b then b else a

/-- Python `min` on two rationals. -/
def rmin (a b : Rat) : Rat := if a ≤ b then a else b

theorem le_rmax_left (a b : Rat) : a ≤ rmax a b := by
  unfold rmax
  split
  · assumption
  · exact le_refl a

theorem rmax_zero_le (b : Rat) : 0 ≤ rmax 0 b := le_rmax_left 0 b

theorem rmin_nonneg {a b : Rat} (ha : 0 ≤ a) (hb : 0 ≤ b) : 0 ≤ rmin a b := by
  unfold rmin
  split
  · exact ha
  · exact hb

/-! ## Data model (src/core/models.py) -/

/-- `Link` from models.py: a per-star outgoing link. The Python field `to` is
called `toId` (`to` is a reserved token in Lean). -/
structure Link where
  toId : Nat
  distance : Rat
  blocked : Bool
deriving DecidableEq, Repr

/-- `Star` from models.py (UI-only fields `label`, `x`, `y`, `radius` and the
cluster bookkeeping fields are omitted; no operation verified here reads
them). -/
structure Star where
  id : Nat
  time_to_eat : Rat := 1
  amount_of_energy : Rat := 1
  investigation_energy_cost : Rat := 0
  hypergiant : Bool := false
  links : List Link := []
  life_delta : Rat := 0
  health_modifier : Option String := none
  energy_bonus_pct : Rat := 0
deriving DecidableEq, Repr

/-- The loop body of `Star.add_link`: merge into the first link with the same
target (minimal distance, OR of blocked), else append a fresh link. -/
def add_link_list (toId : Nat) (distance : Rat) (blocked : Bool) : List Link → List Link
  | [] => [{ toId := toId, distance := distance, blocked := blocked }]
  | l :: ls =>
    if l.toId = toId then
      { l with distance := rmin l.distance distance, blocked := l.blocked || blocked } :: ls
    else
      l :: add_link_list toId distance blocked ls

/-- `Star.add_link` from models.py. -/
def Star.add_link (st : Star) (toId : Nat) (distance : Rat) (blocked : Bool) : Star :=
  { st with links := add_link_list toId distance blocked st.links }

/-- Optional per-donkey simulation configuration (`burro.json` → `sim_config`).
Absent keys are `none`, matching `cfg.get(...)` returning `None`. -/
structure SimConfig where
  movementCostFactorByHealth : Option (List (String × Rat)) := none
  healthEnergyGain : Option (List (String × Rat)) := none
  hypergiantRechargePct : Option Rat := none
  hypergiantPastoMultiplier : Option Rat := none
  eatEnergyThresholdPct : Option Rat := none
  maxEatPortionFraction : Option Rat := none
deriving DecidableEq, Repr

/-- `Donkey` from models.py (the agent / traveler). -/
structure Donkey where
  salud : String
  energia_pct : Rat
  pasto_kg : Rat
  edad : Rat
  vida_maxima : Rat
  sim_config : Option SimConfig := none
deriving DecidableEq, Repr

/-- `Donkey.energy_gain_per_kg` from models.py: configured table if present,
otherwise the hard-coded defaults. -/
def Donkey.energy_gain_per_kg (d : Donkey) : Rat :=
  match d.sim_config.bind (fun c => c.healthEnergyGain) with
  | some m => (alookup m d.salud).getD 2
  | none =>
    if d.salud = "Excelente" then 5
    else if d.salud = "Buena" then 3
    else if d.salud = "Regular" then 3
    else if d.salud = "Mala" then 2
    else if d.salud = "Moribundo" then 1/2
    else if d.salud = "Muerto" then 0
    else 2

/-- `Donkey.apply_health_modifier` from models.py: overwrite `salud` whenever
the modifier is one of the accepted labels (an empty/absent modifier is a
no-op, matching the `if not modifier` guard). -/
def Donkey.apply_health_modifier (d : Donkey) (m : Option String) : Donkey :=
  match m with
  | none => d
  | some s =>
    if s = "Excelente" ∨ s = "Regular" ∨ s = "Mala" ∨ s = "Moribundo" ∨ s = "Muerto" ∨
        s = "Buena" then
      { d with salud := s }
    else d

/-- `Donkey.update_health_by_energy` from models.py: re-derive the health label
from the energy percentage; `"Muerto"` is never left. -/
def Donkey.update_health_by_energy (d : Donkey) : Donkey :=
  if d.salud = "Muerto" then d
  else if d.energia_pct ≤ 0 then { d with salud := "Muerto" }
  else if d.energia_pct ≤ 25 then { d with salud := "Moribundo" }
  else if d.energia_pct ≤ 50 then { d with salud := "Mala" }
  else if d.energia_pct ≤ 75 then { d with salud := "Buena" }
  else { d with salud := "Excelente" }

/-- `Edge` from models.py: a directed adjacency entry. -/
structure Edge where
  u : Nat
  v : Nat
  distance : Rat
  blocked : Bool
deriving DecidableEq, Repr

/-- `Graph` from models.py. `constellations` is omitted: no operation verified
here reads or writes it. -/
structure Graph where
  stars : List (Nat × Star) := []
  adjacency : List (Nat × List (Nat × Edge)) := []
deriving DecidableEq, Repr

/-- Combined lookup `graph.adjacency[a][b]`. -/
def lookupEdge (g : Graph) (a b : Nat) : Option Edge :=
  (alookup g.adjacency a).bind (fun nbrs => alookup nbrs b)

/-- There is a directed adjacency entry from `a` to `b`. -/
def hasEdge (g : Graph) (a b : Nat) : Prop :=
  ∃ e, lookupEdge g a b = some e

/-! ## `Graph.ensure_bidirectional` (models.py) -/

/-- One inner-loop iteration of `ensure_bidirectional`: given a forward entry
`u → v` carrying `e`, add the reverse entry `v → u` (and the matching
`stars[v].add_link`) if it is missing. A missing star `v` would raise a
`KeyError` in Python (a construction-error case); it is modeled as skipping
the `Star.links` update. -/
def addReverseIfMissing (g : Graph) (u v : Nat) (e : Edge) (defaultBlocked : Bool) : Graph :=
  let rev := (alookup g.adjacency v).getD []
  match alookup rev u with
  | some _ => g
  | none =>
    let b := e.blocked || defaultBlocked
    let adj2 := aset g.adjacency v (rev ++ [(u, (⟨v, u, e.distance, b⟩ : Edge))])
    let g1 : Graph := { g with adjacency := adj2 }
    match alookup g1.stars v with
    | some st => { g1 with stars := aset g1.stars v (st.add_link u e.distance b) }
    | none => g1

/-- The inner loop of `ensure_bidirectional` over the (snapshot of the)
neighbor list of `u`. -/
def processNeighbors (defaultBlocked : Bool) (u : Nat) (g : Graph)
    (nbrs : List (Nat × Edge)) : Graph :=
  nbrs.foldl (fun g p => addReverseIfMissing g u p.1 p.2 defaultBlocked) g

/-- The outer loop of `ensure_bidirectional`: iterate over the snapshot of the
adjacency keys taken at entry; each key reads its current neighbor list. -/
def ebLoop (defaultBlocked : Bool) (keys : List Nat) (g : Graph) : Graph :=
  keys.foldl (fun g u => processNeighbors defaultBlocked u g
    ((alookup g.adjacency u).getD [])) g

/-- `Graph.ensure_bidirectional` from models.py. -/
def Graph.ensure_bidirectional (g : Graph) (defaultBlocked : Bool := false) : Graph :=
  ebLoop defaultBlocked (g.adjacency.map Prod.fst) g

/-! ## `Graph.toggle_edge_block` (models.py) -/

/-- The `for l in stars[a].links: if l.to == b: l.blocked = v; break` sync. -/
def setLinkBlocked (b : Nat) (val : Bool) : List Link → List Link
  | [] => []
  | l :: ls => if l.toId = b then { l with blocked := val } :: ls
               else l :: setLinkBlocked b val ls

/-- Sync `stars[a].links` after a block change on edge `(a, b)`. -/
def syncLinks (g : Graph) (a b : Nat) (val : Bool) : Graph :=
  match alookup g.stars a with
  | none => g
  | some st => { g with stars := aset g.stars a { st with links := setLinkBlocked b val st.links } }

/-- The `_apply` helper of `Graph.toggle_edge_block`: update one direction,
returning the updated graph and whether the blocked flag actually changed. -/
def toggleApply (g : Graph) (a b : Nat) (blocked : Option Bool) : Graph × Bool :=
  match alookup g.adjacency a with
  | none => (g, false)
  | some nbrs =>
    match alookup nbrs b with
    | none => (g, false)
    | some edge =>
      let newVal := match blocked with
        | none => !edge.blocked
        | some bv => bv
      let changed := edge.blocked != newVal
      let g1 : Graph :=
        { g with adjacency := aset g.adjacency a (aset nbrs b { edge with blocked := newVal }) }
      (syncLinks g1 a b newVal, changed)

/-- `Graph.toggle_edge_block` from models.py: apply to `(u, v)`, then to
`(v, u)` on the already-updated graph; return whether either changed. -/
def Graph.toggle_edge_block (g : Graph) (u v : Nat) (blocked : Option Bool) : Graph × Bool :=
  let r1 := toggleApply g u v blocked
  let r2 := toggleApply r1.1 v u blocked
  (r2.1, r1.2 || r2.2)

/-! ## Shortest-path engine (src/core/planner.py, `dijkstra` / `reconstruct_path`) -/

/-- `heapq.heappop`: remove the lexicographically smallest `(distance, node)`
pair (earliest occurrence among equals). -/
def popMin : List (Rat × Nat) → Option ((Rat × Nat) × List (Rat × Nat))
  | [] => none
  | x :: xs =>
    match popMin xs with
    | none => some (x, xs)
    | some (m, rest) =>
      if x.1 < m.1 ∨ (x.1 = m.1 ∧ x.2 ≤ m.2) then some (x, xs) else some (m, x :: rest)

theorem popMin_mem {pq : List (Rat × Nat)} {x : Rat × Nat} {rest : List (Rat × Nat)}
    (h : popMin pq = some (x, rest)) : x ∈ pq := by
  induction pq generalizing x rest with
  | nil => simp [popMin] at h
  | cons y ys ih =>
    simp only [popMin] at h
    cases hm : popMin ys with
    | none =>
      rw [hm] at h
      simp at h
      exact h.1 ▸ List.mem_cons_self _ _
    | some p =>
      obtain ⟨m, r⟩ := p
      rw [hm] at h
      by_cases hc : y.1 < m.1 ∨ (y.1 = m.1 ∧ y.2 ≤ m.2)
      · simp [hc] at h
        exact h.1 ▸ List.mem_cons_self _ _
      · simp [hc] at h
        exact List.mem_cons_of_mem _ (ih (h.1 ▸ hm))

theorem popMin_rest_mem {pq : List (Rat × Nat)} {x : Rat × Nat} {rest : List (Rat × Nat)}
    (h : popMin pq = some (x, rest)) : ∀ y ∈ rest, y ∈ pq := by
  induction pq generalizing x rest with
  | nil => simp [popMin] at h
  | cons z zs ih =>
    simp only [popMin] at h
    cases hm : popMin zs with
    | none =>
      rw [hm] at h
      simp at h
      intro y hy
      exact List.mem_cons_of_mem _ (h.2 ▸ hy)
    | some p =>
      obtain ⟨m, r⟩ := p
      rw [hm] at h
      by_cases hc : z.1 < m.1 ∨ (z.1 = m.1 ∧ z.2 ≤ m.2)
      · simp [hc] at h
        intro y hy
        exact List.mem_cons_of_mem _ (h.2 ▸ hy)
      · simp [hc] at h
        intro y hy
        rw [← h.2] at hy
        rcases List.mem_cons.mp hy with hy' | hy'
        · exact hy' ▸ List.mem_cons_self _ _
        · exact List.mem_cons_of_mem _ (ih (h.1 ▸ hm) y hy')

/-- One edge relaxation of `dijkstra` (the body of the neighbor loop). The
accumulator is `(dist, parent, pq)`. Python's `dist.get(x, INF)` comparisons
against infinity are modeled by the `Option` cases. -/
def relaxStep (includeBlocked : Bool) (u : Nat) (d : Rat)
    (acc : List (Nat × Rat) × List (Nat × Option Nat) × List (Rat × Nat))
    (p : Nat × Edge) :
    List (Nat × Rat) × List (Nat × Option Nat) × List (Rat × Nat) :=
  let dist := acc.1
  let parent := acc.2.1
  let pq := acc.2.2
  if !includeBlocked && p.2.blocked then acc
  else
    let nd := d + p.2.distance
    match alookup dist p.1 with
    | some dv =>
      if nd < dv then (aset dist p.1 nd, aset parent p.1 (some u), pq ++ [(nd, p.1)])
      else acc
    | none => (aset dist p.1 nd, aset parent p.1 (some u), pq ++ [(nd, p.1)])

/-- The main `while pq:` loop of `dijkstra`, with fuel. -/
def dijkstraLoop (g : Graph) (includeBlocked : Bool) :
    Nat → List (Rat × Nat) → List (Nat × Rat) → List (Nat × Option Nat) →
    List (Nat × Rat) × List (Nat × Option Nat)
  | 0, _, dist, parent => (dist, parent)
  | fuel + 1, pq, dist, parent =>
    match popMin pq with
    | none => (dist, parent)
    | some (x, pq2) =>
      match alookup dist x.2 with
      | some du =>
        if du < x.1 then dijkstraLoop g includeBlocked fuel pq2 dist parent
        else
          let acc := ((alookup g.adjacency x.2).getD []).foldl
            (relaxStep includeBlocked x.2 x.1) (dist, parent, pq2)
          dijkstraLoop g includeBlocked fuel acc.2.2 acc.1 acc.2.1
      | none =>
        let acc := ((alookup g.adjacency x.2).getD []).foldl
          (relaxStep includeBlocked x.2 x.1) (dist, parent, pq2)
        dijkstraLoop g includeBlocked fuel acc.2.2 acc.1 acc.2.1

/-- Fuel that is evidently sufficient for the graphs evaluated concretely in
this development (the loop stops early as soon as the queue empties, so any
surplus is harmless, and the invariants proved below hold for every fuel). -/
def dijkstraFuel (g : Graph) : Nat :=
  (g.stars.length + 2) * (g.stars.length + 2) *
    ((g.adjacency.map (fun p => p.2.length)).sum + 2)

/-- `dijkstra` without the source-membership check. -/
def dijkstraCore (g : Graph) (includeBlocked : Bool) (source : Nat) :
    List (Nat × Rat) × List (Nat × Option Nat) :=
  dijkstraLoop g includeBlocked (dijkstraFuel g) [(0, source)] [(source, 0)] [(source, none)]

/-- `dijkstra` from planner.py: raises `ValueError` when the source is not a
known star, otherwise returns the `(dist, parent)` maps; unreachable nodes are
simply absent from both. -/
def dijkstra (g : Graph) (source : Nat) (includeBlocked : Bool := false) :
    Except String (List (Nat × Rat) × List (Nat × Option Nat)) :=
  if (alookup g.stars source).isSome then Except.ok (dijkstraCore g includeBlocked source)
  else Except.error "source not in graph"

/-- The `while cur is not None:` walk of `reconstruct_path`, with fuel (the
parent chain of a Dijkstra run visits pairwise-distinct nodes, so
`parent.length + 1` steps always complete it). -/
def reconstructGo : Nat → List (Nat × Option Nat) → Option Nat → List Nat → List Nat
  | 0, _, _, acc => acc
  | _ + 1, _, none, acc => acc
  | fuel + 1, parent, some cur, acc =>
    reconstructGo fuel parent ((alookup parent cur).getD none) (cur :: acc)

/-- `reconstruct_path` from planner.py: `[]` when the target is unreachable
(absent from the parent map), else the source-to-target node list. -/
def reconstruct_path (parent : List (Nat × Option Nat)) (target : Nat) : List Nat :=
  match alookup parent target with
  | none => []
  | some _ => reconstructGo (parent.length + 1) parent (some target) []

/-! ## Route planner (src/core/planner.py) -/

/-- `movement_energy_factor` from planner.py. The source reads
`factors.get(donkey.salud, 1.0)` inside `try: return float(...)`; with numeric
configuration values `float` never raises, so the `except` branch holding the
documented 0.6/0.75/0.8/1.0/1.3 default table is unreachable and the reachable
behavior is the dictionary lookup with default `1.0` embedded here. -/
def movement_energy_factor (d : Donkey) : Rat :=
  let factors := (d.sim_config.bind (fun c => c.movementCostFactorByHealth)).getD []
  (alookup factors d.salud).getD 1

/-- `estimate_static_visit_cost` from planner.py. -/
def estimate_static_visit_cost (star : Star) (_d : Donkey) : Rat :=
  rmax 0 (star.investigation_energy_cost * (star.time_to_eat * (1/2)))

/-- Insertion step for modeling CPython small-int set iteration order. -/
def insertSorted (n : Nat) : List Nat → List Nat
  | [] => [n]
  | m :: ms => if n ≤ m then n :: m :: ms else m :: insertSorted n ms

/-- Ascending sort, the iteration order of a CPython set of small ints. -/
def sortNat : List Nat → List Nat
  | [] => []
  | n :: ns => insertSorted n (sortNat ns)

/-- The candidate-selection loop of `greedy_max_visits`: the reachable
unvisited node of least shortest-path cost that still fits the budget
(`c < best_cost and used + c <= budget`, first hit wins ties). -/
def pickBest (dist : List (Nat × Rat)) (remaining : List Nat) (used budget : Rat) :
    Option (Nat × Rat) :=
  remaining.foldl (fun best v =>
    match alookup dist v with
    | none => best
    | some c =>
      match best with
      | none => if used + c ≤ budget then some (v, c) else none
      | some p => if c < p.2 ∧ used + c ≤ budget then some (v, c) else some p) none

/-- The intermediate-waypoint loop of `greedy_max_visits`: `visited` gains only
unseen nodes but every path node is appended to `route` (faithful to the
source, where the append sits outside the membership test). -/
def appendIntermediates : List Nat → List Nat → List Nat → List Nat × List Nat
  | [], visited, route => (visited, route)
  | n :: rest, visited, route =>
    let visited2 := if n ∈ visited then visited else n :: visited
    appendIntermediates rest visited2 (route ++ [n])

/-- The `while remaining:` loop of `greedy_max_visits`, with fuel (each
iteration removes the chosen node from `remaining`, so `remaining.length`
fuel always completes the loop). -/
def greedyLoop (g : Graph) (includeBlocked : Bool) (budget : Rat) :
    Nat → Nat → List Nat → List Nat → List Nat → Rat → Except String (List Nat × Rat)
  | 0, _, _, _, route, used => Except.ok (route, used)
  | fuel + 1, current, remaining, visited, route, used =>
    if remaining.isEmpty then Except.ok (route, used)
    else
      match dijkstra g current includeBlocked with
      | Except.error e => Except.error e
      | Except.ok (dist, parent) =>
        match pickBest dist remaining used budget with
        | none => Except.ok (route, used)
        | some best =>
          let used2 := used + best.2
          let path := reconstruct_path parent best.1
          let vr :=
            if path.head? = some current then appendIntermediates path.tail visited route
            else (best.1 :: visited, route ++ [best.1])
          greedyLoop g includeBlocked budget fuel best.1 (remaining.erase best.1)
            vr.1 vr.2 used2

/-- `greedy_max_visits` from planner.py. -/
def greedy_max_visits (g : Graph) (source : Nat) (budget : Rat)
    (includeBlocked : Bool := false) : Except String (List Nat × Rat) :=
  if (alookup g.stars source).isNone then Except.error "source not in graph"
  else if budget ≤ 0 then Except.ok ([source], 0)
  else
    let remaining := sortNat ((g.stars.map Prod.fst).filter (fun k => k ≠ source))
    greedyLoop g includeBlocked budget remaining.length source remaining [source] [source] 0

/-! ## Simulator (src/core/simulator.py) -/

/-- One entry of `SimulationState.stars_log` (the per-visit audit record). -/
structure StarsLogEntry where
  star : Nat
  kg_eaten : Rat
  energy_gain : Rat
  invest_cost : Rat
  portion_eat : Rat
  portion_invest : Rat
  energy_before : Rat
  pasto_before : Rat
  life_before : Rat
  salud_before : String
  energy_after : Rat
  pasto_after : Rat
  life_after : Rat
  salud_after : String
  life_delta : Rat
  hypergiant : Bool
deriving DecidableEq, Repr

/-- One entry of `Simulator.log` (`_log_event`); `distance` models the
optional `extra={"distance": ...}` payload of `visit` events. -/
structure LogEvent where
  tick : Nat
  event : String
  star : Nat
  energy_pct : Rat
  pasto_kg : Rat
  life_remaining : Rat
  hypergiant : Bool
  distance : Option Rat := none
deriving DecidableEq, Repr

/-- `SimulationState` from simulator.py. -/
structure SimulationState where
  current_star : Nat
  energy_pct : Rat
  pasto_kg : Rat
  life_remaining : Rat
  tick : Nat := 0
  finished : Bool := false
  dead : Bool := false
  stars_log : List StarsLogEntry := []
deriving DecidableEq, Repr

/-- `Simulator` from simulator.py (`self.graph`, `self.donkey`, `self.route`,
`self.index`, `self._visited`, `self.state`, `self.log`); `_visited` is a set
queried only for membership, modeled as a list. -/
structure Simulator where
  graph : Graph
  donkey : Donkey
  route : List Nat
  index : Nat
  visited : List Nat
  state : SimulationState
  log : List LogEvent
deriving DecidableEq, Repr

/-- `Simulator.__init__`: requires a non-empty route (else `ValueError`). -/
def mkSimulator (g : Graph) (d : Donkey) (route : List Nat) : Option Simulator :=
  match route with
  | [] => none
  | r0 :: _ =>
    some { graph := g, donkey := d, route := route, index := 0, visited := [],
           state := { current_star := r0, energy_pct := d.energia_pct,
                      pasto_kg := d.pasto_kg,
                      life_remaining := rmax 0 (d.vida_maxima - d.edad) },
           log := [] }

/-- `Simulator._apply_hypergiant`. -/
def Simulator.apply_hypergiant (s : Simulator) (star_id : Nat) : Simulator :=
  match alookup s.graph.stars star_id with
  | none => s
  | some star =>
    if star.hypergiant then
      let cfg := s.donkey.sim_config
      let recharge := (cfg.bind (fun c => c.hypergiantRechargePct)).getD (1/2)
      let mult := (cfg.bind (fun c => c.hypergiantPastoMultiplier)).getD 2
      { s with state := { s.state with
          energy_pct := rmin 100 (s.state.energy_pct * (1 + rmax 0 recharge)),
          pasto_kg := s.state.pasto_kg * rmax 1 mult } }
    else s

/-- `Simulator._consume_movement`: clamped life/energy consumption followed by
the energy-based health re-derivation. With no configuration the health
factor is `factors.get(salud, 1.0) = 1.0`. -/
def Simulator.consume_movement (s : Simulator) (distance : Rat) : Simulator :=
  let factors := (s.donkey.sim_config.bind (fun c => c.movementCostFactorByHealth)).getD []
  let factor := (alookup factors s.donkey.salud).getD 1
  let life := rmax 0 (s.state.life_remaining - distance)
  let energy := rmax 0 (s.state.energy_pct - distance * factor)
  let d2 := ({ s.donkey with energia_pct := energy } : Donkey).update_health_by_energy
  { s with donkey := d2,
           state := { s.state with life_remaining := life, energy_pct := energy } }

/-- `Simulator._visit_star`: eat/investigate split, life delta, health
modifier, health re-derivation, hypergiant effect, and the audit log entry. -/
def Simulator.visit_star (s : Simulator) (star_id : Nat) : Simulator :=
  match alookup s.graph.stars star_id with
  | none => s
  | some star =>
    let before_energy := s.state.energy_pct
    let before_pasto := s.state.pasto_kg
    let before_life := s.state.life_remaining
    let before_salud := s.donkey.salud
    let session_time := rmax (1/2) (star.time_to_eat * 2)
    let cfg := s.donkey.sim_config
    let threshold := (cfg.bind (fun c => c.eatEnergyThresholdPct)).getD 50
    let max_eat_frac := (cfg.bind (fun c => c.maxEatPortionFraction)).getD (1/2)
    let portion_eat :=
      if s.state.energy_pct < threshold then session_time * rmax 0 (rmin 1 max_eat_frac) else 0
    let portion_invest := rmax 0 (session_time - portion_eat)
    let kg_possible := portion_eat / rmax (1/10) star.time_to_eat
    let kg_eaten := rmin s.state.pasto_kg kg_possible
    let gain_per_kg := s.donkey.energy_gain_per_kg * (1 + rmax 0 star.energy_bonus_pct)
    let energy_gain := kg_eaten * gain_per_kg
    let pasto2 := rmax 0 (s.state.pasto_kg - kg_eaten)
    let invest_energy_cost := star.investigation_energy_cost * portion_invest
    let energy2 := rmax 0 (rmin 100 (s.state.energy_pct - invest_energy_cost + energy_gain))
    let life2 := rmax 0 (s.state.life_remaining + star.life_delta)
    let d2 := s.donkey.apply_health_modifier star.health_modifier
    let d3 := ({ d2 with energia_pct := energy2 } : Donkey).update_health_by_energy
    let st2 : SimulationState :=
      { s.state with energy_pct := energy2, pasto_kg := pasto2, life_remaining := life2 }
    let s2 : Simulator := { s with donkey := d3, state := st2 }
    let s3 := s2.apply_hypergiant star_id
    let en : StarsLogEntry :=
      { star := star_id, kg_eaten := kg_eaten, energy_gain := energy_gain,
        invest_cost := invest_energy_cost, portion_eat := portion_eat,
        portion_invest := portion_invest, energy_before := before_energy,
        pasto_before := before_pasto, life_before := before_life,
        salud_before := before_salud, energy_after := s3.state.energy_pct,
        pasto_after := s3.state.pasto_kg, life_after := s3.state.life_remaining,
        salud_after := s3.donkey.salud, life_delta := star.life_delta,
        hypergiant := star.hypergiant }
    { s3 with state := { s3.state with stars_log := s3.state.stars_log ++ [en] } }

/-- `Simulator._log_event`. -/
def Simulator.log_event (s : Simulator) (kind : String) (star_id : Nat)
    (dist : Option Rat) : Simulator :=
  let hyper := match alookup s.graph.stars star_id with
    | some st => st.hypergiant
    | none => false
  { s with log := s.log ++
      [{ tick := s.state.tick, event := kind, star := star_id,
         energy_pct := s.state.energy_pct, pasto_kg := s.state.pasto_kg,
         life_remaining := s.state.life_remaining, hypergiant := hyper,
         distance := dist }] }

/-- The arrival phase of `Simulator.step` after a reachable distance was
found: movement consumption, index/position advance, first-time visit, and
the tick increment. -/
def Simulator.arrive (s : Simulator) (dst : Nat) (distance : Rat) : Simulator :=
  let s1 := s.consume_movement distance
  let s2 : Simulator :=
    { s1 with index := s1.index + 1,
              state := { s1.state with current_star := dst } }
  let s3 :=
    if dst ∈ s2.visited then s2
    else
      let sv := s2.visit_star dst
      { sv with visited := dst :: sv.visited }
  { s3 with state := { s3.state with tick := s3.state.tick + 1 } }

/-- `Simulator.step`. The only exception it can raise is `dijkstra`'s unknown
source (`ValueError`), modeled through `Except`. -/
def Simulator.step (s : Simulator) : Except String Simulator :=
  if s.state.finished || s.state.dead then Except.ok s
  else if s.route.length ≤ s.index + 1 then
    let s1 := s.visit_star (s.route.getD s.index 0)
    let s2 : Simulator := { s1 with state := { s1.state with finished := true } }
    Except.ok (s2.log_event "finish" (s.route.getD s.index 0) none)
  else
    let src := s.route.getD s.index 0
    let dst := s.route.getD (s.index + 1) 0
    match dijkstra s.graph src false with
    | Except.error e => Except.error e
    | Except.ok dp =>
      match alookup dp.1 dst with
      | none =>
        let s1 : Simulator := { s with state := { s.state with finished := true } }
        Except.ok (s1.log_event "blocked_route" src none)
      | some distance =>
        let s4 := s.arrive dst distance
        if s4.state.energy_pct ≤ 0 ∨ s4.state.life_remaining ≤ 0 then
          Except.ok (({ s4 with
            state := { s4.state with dead := true, finished := true } } : Simulator).log_event
              "death" dst none)
        else
          Except.ok (s4.log_event "visit" dst (some distance))

/-- The `while` loop of `Simulator.run_all`, with fuel. -/
def Simulator.run_all_fuel : Nat → Simulator → Except String Simulator
  | 0, s => Except.ok s
  | fuel + 1, s =>
    if s.state.finished || s.state.dead then Except.ok s
    else
      match s.step with
      | Except.ok s2 => Simulator.run_all_fuel fuel s2
      | Except.error e => Except.error e

/-- `Simulator.run_all`: every non-final `step` advances `index` by one and the
final one sets `finished`, so `route.length + 1` iterations always reach the
loop exit. -/
def Simulator.run_all (s : Simulator) : Except String Simulator :=
  Simulator.run_all_fuel (s.route.length + 1) s

/-- `Simulator.teleport_and_visit`. -/
def Simulator.teleport_and_visit (s : Simulator) (dest : Nat) : Simulator :=
  if s.state.finished || s.state.dead then s
  else
    let route2 := s.route.insertIdx (s.index + 1) dest
    let idx2 := if s.index + 1 <= route2.length - 1 then s.index + 1 else route2.length - 1
    let s1 : Simulator :=
      { s with route := route2, index := idx2,
               state := { s.state with current_star := dest } }
    let s2 :=
      if dest ∈ s1.visited then s1
      else
        let sv := s1.visit_star dest
        { sv with visited := dest :: sv.visited }
    s2.log_event "teleport" dest none

/-! ## Concrete instances used to evaluate the embedded code -/

/-- Shorthand for an adjacency entry. -/
def e2 (a b : Nat) (d : Rat) (bl : Bool := false) : Edge := ⟨a, b, d, bl⟩

/-- Two stars joined by an unblocked edge of distance 30. -/
def c1Graph : Graph :=
  { stars := [(1, { id := 1 }), (2, { id := 2 })],
    adjacency := [(1, [(2, e2 1 2 30)]), (2, [(1, e2 2 1 30)])] }

/-- Energy 100%, no resource, best health, no simulation configuration. -/
def c1Donkey : Donkey :=
  { salud := "Excelente", energia_pct := 100, pasto_kg := 0, edad := 0, vida_maxima := 1000 }

/-- Triangle in which the cheapest route from 2 to 3 passes back through 1. -/
def c2Graph : Graph :=
  { stars := [(1, { id := 1 }), (2, { id := 2 }), (3, { id := 3 })],
    adjacency := [(1, [(2, e2 1 2 1), (3, e2 1 3 2)]),
                  (2, [(1, e2 2 1 1), (3, e2 2 3 10)]),
                  (3, [(1, e2 3 1 2), (2, e2 3 2 10)])] }

/-- Two stars, distance 5; star 2 carries a life delta of −2 per visit. -/
def c3Graph : Graph :=
  { stars := [(1, { id := 1 }), (2, { id := 2, life_delta := -2 })],
    adjacency := [(1, [(2, e2 1 2 5)]), (2, [(1, e2 2 1 5)])] }

/-- Star 2 overrides health to the dead label, star 3 back to the best one. -/
def c4Graph : Graph :=
  { stars := [(1, { id := 1 }), (2, { id := 2, health_modifier := some "Muerto" }),
              (3, { id := 3, health_modifier := some "Excelente" })],
    adjacency := [(1, [(2, e2 1 2 5)]), (2, [(1, e2 2 1 5), (3, e2 2 3 5)]),
                  (3, [(2, e2 3 2 5)])] }

/-- Two stars whose only edge is blocked in both directions. -/
def c5Graph : Graph :=
  { stars := [(1, { id := 1 }), (2, { id := 2 })],
    adjacency := [(1, [(2, e2 1 2 30 true)]), (2, [(1, e2 2 1 30 true)])] }

/-- A freshly constructed simulator on `c5Graph` (the value produced by
`mkSimulator c5Graph c1Donkey [1, 2]`). -/
def c5Sim : Simulator :=
  { graph := c5Graph, donkey := c1Donkey, route := [1, 2], index := 0, visited := [],
    state := { current_star := 1, energy_pct := 100, pasto_kg := 0, life_remaining := 1000 },
    log := [] }

/-- Three stars: 1–2 linked (weight 4), 3 isolated (unreachable). -/
def c7Graph : Graph :=
  { stars := [(1, { id := 1 }), (2, { id := 2 }), (3, { id := 3 })],
    adjacency := [(1, [(2, e2 1 2 4)]), (2, [(1, e2 2 1 4)])] }

/-- A one-directional adjacency (mirrors missing), one edge blocked. -/
def c8Graph : Graph :=
  { stars := [(1, { id := 1 }), (2, { id := 2 }), (3, { id := 3 })],
    adjacency := [(1, [(2, e2 1 2 7), (3, e2 1 3 4 true)])] }

/-- Graph holding the directed edge (1,2) only, without its mirror. -/
def c10Graph : Graph :=
  { stars := [(1, { id := 1 }), (2, { id := 2 })],
    adjacency := [(1, [(2, e2 1 2 9)])] }

/-! ## Helper lemmas about the simulator -/

theorem update_health_muerto (d : Donkey) (h : d.salud = "Muerto") :
    d.update_health_by_energy = d := by
  simp [Donkey.update_health_by_energy, h]

theorem update_health_salud_of {d : Donkey} (h : d.salud = "Muerto") :
    d.update_health_by_energy.salud = "Muerto" := by
  simp [Donkey.update_health_by_energy, h]

theorem apply_hypergiant_donkey (s : Simulator) (sid : Nat) :
    (s.apply_hypergiant sid).donkey = s.donkey := by
  unfold Simulator.apply_hypergiant
  cases alookup s.graph.stars sid with
  | none => rfl
  | some star =>
    by_cases hh : star.hypergiant <;> simp [hh]

theorem apply_hypergiant_life (s : Simulator) (sid : Nat) :
    (s.apply_hypergiant sid).state.life_remaining = s.state.life_remaining := by
  unfold Simulator.apply_hypergiant
  cases alookup s.graph.stars sid with
  | none => rfl
  | some star =>
    by_cases hh : star.hypergiant <;> simp [hh]

theorem apply_hypergiant_log (s : Simulator) (sid : Nat) :
    (s.apply_hypergiant sid).log = s.log := by
  unfold Simulator.apply_hypergiant
  cases alookup s.graph.stars sid with
  | none => rfl
  | some star =>
    by_cases hh : star.hypergiant <;> simp [hh]

theorem apply_hypergiant_energy_nonneg (s : Simulator) (sid : Nat)
    (h : 0 ≤ s.state.energy_pct) : 0 ≤ (s.apply_hypergiant sid).state.energy_pct := by
  unfold Simulator.apply_hypergiant
  cases alookup s.graph.stars sid with
  | none => exact h
  | some star =>
    by_cases hh : star.hypergiant
    · simp only [hh, if_true]
      refine rmin_nonneg (by norm_num) (mul_nonneg h ?_)
      have : (0 : Rat) ≤ rmax 0 ((s.donkey.sim_config.bind
          (fun c => c.hypergiantRechargePct)).getD (1/2)) := rmax_zero_le _
      linarith
    · simp only [hh, if_false]
      exact h

theorem consume_movement_energy_nonneg (s : Simulator) (dist : Rat) :
    0 ≤ (s.consume_movement dist).state.energy_pct :=
  rmax_zero_le _

theorem consume_movement_life_nonneg (s : Simulator) (dist : Rat) :
    0 ≤ (s.consume_movement dist).state.life_remaining :=
  rmax_zero_le _

theorem consume_movement_log (s : Simulator) (dist : Rat) :
    (s.consume_movement dist).log = s.log := rfl

theorem consume_movement_salud_muerto (s : Simulator) (dist : Rat)
    (h : s.donkey.salud = "Muerto") :
    (s.consume_movement dist).donkey.salud = "Muerto" := by
  unfold Simulator.consume_movement
  simp only
  apply update_health_salud_of
  exact h

theorem visit_star_energy_nonneg (s : Simulator) (sid : Nat)
    (h : 0 ≤ s.state.energy_pct) : 0 ≤ (s.visit_star sid).state.energy_pct := by
  unfold Simulator.visit_star
  cases hl : alookup s.graph.stars sid with
  | none => exact h
  | some star =>
    simp only
    apply apply_hypergiant_energy_nonneg
    exact rmax_zero_le _

theorem visit_star_life_nonneg (s : Simulator) (sid : Nat)
    (h : 0 ≤ s.state.life_remaining) : 0 ≤ (s.visit_star sid).state.life_remaining := by
  unfold Simulator.visit_star
  cases hl : alookup s.graph.stars sid with
  | none => exact h
  | some star =>
    simp only
    rw [apply_hypergiant_life]
    exact rmax_zero_le _

theorem visit_star_log (s : Simulator) (sid : Nat) : (s.visit_star sid).log = s.log := by
  unfold Simulator.visit_star
  cases hl : alookup s.graph.stars sid with
  | none => rfl
  | some star =>
    simp only
    rw [apply_hypergiant_log]

theorem visit_star_donkey_muerto (s : Simulator) (sid : Nat) (st : Star)
    (hl : alookup s.graph.stars sid = some st) (hm : st.health_modifier = none)
    (h : s.donkey.salud = "Muerto") : (s.visit_star sid).donkey.salud = "Muerto" := by
  unfold Simulator.visit_star
  rw [hl]
  simp only
  rw [apply_hypergiant_donkey]
  simp only [hm, Donkey.apply_health_modifier]
  apply update_health_salud_of
  exact h

theorem log_event_state (s : Simulator) (k : String) (sid : Nat) (d : Option Rat) :
    (s.log_event k sid d).state = s.state := rfl

theorem log_event_log (s : Simulator) (k : String) (sid : Nat) (d : Option Rat) :
    (s.log_event k sid d).log = s.log ++
      [{ tick := s.state.tick, event := k, star := sid, energy_pct := s.state.energy_pct,
         pasto_kg := s.state.pasto_kg, life_remaining := s.state.life_remaining,
         hypergiant := match alookup s.graph.stars sid with
           | some st => st.hypergiant
           | none => false,
         distance := d }] := rfl

/-- The logged-quantity invariant of C6: the live state and every event of
the event log carry non-negative energy and life. -/
def SimInv (s : Simulator) : Prop :=
  0 ≤ s.state.energy_pct ∧ 0 ≤ s.state.life_remaining ∧
  ∀ e ∈ s.log, 0 ≤ e.energy_pct ∧ 0 ≤ e.life_remaining

theorem log_event_inv (s : Simulator) (k : String) (sid : Nat) (d : Option Rat)
    (h : SimInv s) : SimInv (s.log_event k sid d) := by
  obtain ⟨h1, h2, h3⟩ := h
  refine ⟨h1, h2, ?_⟩
  intro e he
  rcases List.mem_append.mp he with he | he
  · exact h3 e he
  · rw [List.mem_singleton] at he
    subst he
    exact ⟨h1, h2⟩

theorem visit_star_inv (s : Simulator) (sid : Nat) (h : SimInv s) :
    SimInv (s.visit_star sid) := by
  refine ⟨visit_star_energy_nonneg s sid h.1, visit_star_life_nonneg s sid h.2.1, ?_⟩
  rw [visit_star_log]
  exact h.2.2

theorem consume_movement_inv (s : Simulator) (dist : Rat) (h : SimInv s) :
    SimInv (s.consume_movement dist) :=
  ⟨consume_movement_energy_nonneg s dist, consume_movement_life_nonneg s dist, h.2.2⟩

theorem arrive_inv (s : Simulator) (dst : Nat) (distance : Rat) (h : SimInv s) :
    SimInv (s.arrive dst distance) := by
  unfold Simulator.arrive
  simp only
  split
  · exact ⟨consume_movement_energy_nonneg s distance,
           consume_movement_life_nonneg s distance, h.2.2⟩
  · refine ⟨?_, ?_, ?_⟩
    · exact visit_star_energy_nonneg _ _ (consume_movement_energy_nonneg s distance)
    · exact visit_star_life_nonneg _ _ (consume_movement_life_nonneg s distance)
    · intro e he
      rw [visit_star_log] at he
      exact h.2.2 e he

theorem step_inv (s s2 : Simulator) (h : SimInv s) (hs : s.step = Except.ok s2) :
    SimInv s2 := by
  simp only [Simulator.step] at hs
  split at hs
  · cases hs
    exact h
  · split at hs
    · cases hs
      apply log_event_inv
      have hv := visit_star_inv s (s.route.getD s.index 0) h
      exact ⟨hv.1, hv.2.1, hv.2.2⟩
    · split at hs
      · cases hs
      · split at hs
        · cases hs
          apply log_event_inv
          exact ⟨h.1, h.2.1, h.2.2⟩
        · rename_i distance hdist
          split at hs
          · cases hs
            apply log_event_inv
            have ha := arrive_inv s (s.route.getD (s.index + 1) 0) distance h
            exact ⟨ha.1, ha.2.1, ha.2.2⟩
          · cases hs
            apply log_event_inv
            exact arrive_inv s (s.route.getD (s.index + 1) 0) distance h

theorem teleport_inv (s : Simulator) (dest : Nat) (h : SimInv s) :
    SimInv (s.teleport_and_visit dest) := by
  unfold Simulator.teleport_and_visit
  split
  · exact h
  · apply log_event_inv
    split <;> split
    · exact ⟨h.1, h.2.1, h.2.2⟩
    · refine ⟨?_, ?_, ?_⟩
      · exact visit_star_energy_nonneg _ _ h.1
      · exact visit_star_life_nonneg _ _ h.2.1
      · intro e he
        rw [visit_star_log] at he
        exact h.2.2 e he
    · exact ⟨h.1, h.2.1, h.2.2⟩
    · refine ⟨?_, ?_, ?_⟩
      · exact visit_star_energy_nonneg _ _ h.1
      · exact visit_star_life_nonneg _ _ h.2.1
      · intro e he
        rw [visit_star_log] at he
        exact h.2.2 e he

theorem mkSimulator_inv (g : Graph) (d : Donkey) (r : List Nat) (s : Simulator)
    (hd : 0 ≤ d.energia_pct) (hm : mkSimulator g d r = some s) : SimInv s := by
  unfold mkSimulator at hm
  match r, hm with
  | r0 :: rest, hm =>
    cases hm
    refine ⟨hd, rmax_zero_le _, ?_⟩
    intro e he
    simp at he

/-! ## Claims -/

instance {ε α : Type} [DecidableEq ε] [DecidableEq α] : DecidableEq (Except ε α) :=
  fun x y =>
    match x, y with
    | Except.ok a, Except.ok b =>
      if h : a = b then isTrue (by rw [h]) else
        isFalse (by intro hh; exact h (by injection hh))
    | Except.error a, Except.error b =>
      if h : a = b then isTrue (by rw [h]) else
        isFalse (by intro hh; exact h (by injection hh))
    | Except.ok _, Except.error _ => isFalse (by intro hh; exact Except.noConfusion hh)
    | Except.error _, Except.ok _ => isFalse (by intro hh; exact Except.noConfusion hh)

/-- C1: the claim states that with no simulation configuration a step moving
distance 30 at best health consumes 30 × 0.6 = 18 energy, leaving 82%. The
code actually resolves the health factor to `factors.get(salud, 1.0) = 1.0`
(its documented 0.6/0.75/0.8/1.0/1.3 default table sits in an unreachable
`except` branch), so the step consumes 30 and leaves the energy at 70%. -/
theorem c1_movement_factor_divergence :
    (mkSimulator c1Graph c1Donkey [1, 2]).map
        (fun s => s.step.map (fun t => t.state.energy_pct)) =
      some (Except.ok 70) ∧
    movement_energy_factor c1Donkey = 1 := by
  constructor
  · norm_num +decide [mkSimulator, Simulator.step, Simulator.arrive, Simulator.consume_movement, Simulator.visit_star,
    Simulator.apply_hypergiant, Simulator.log_event, Donkey.update_health_by_energy,
    Donkey.apply_health_modifier, Donkey.energy_gain_per_kg, dijkstra, dijkstraCore,
    dijkstraFuel, dijkstraLoop, popMin, relaxStep, reconstruct_path, reconstructGo,
    alookup, aset, rmax, rmin, Except.map, Option.map, Except.bind, Option.bind,
    List.map, c1Graph, c1Donkey, e2]
  · rfl

/-- C2: the claim states that no planner ever returns a duplicated location.
In `greedy_max_visits` the `route.append(node)` for intermediate waypoints
sits outside the `if node not in visited` guard, so on `c2Graph` (where the
cheapest route from 2 to 3 passes back through the already-visited 1) the
returned sequence is `[1, 2, 1, 3]`, which repeats location 1. -/
theorem c2_greedy_duplicate :
    greedy_max_visits c2Graph 1 100 false = Except.ok ([1, 2, 1, 3], 4) ∧
      ¬ ([1, 2, 1, 3] : List Nat).Nodup := by
  constructor
  · norm_num +decide [greedy_max_visits, greedyLoop, pickBest, appendIntermediates,
      sortNat, insertSorted, dijkstra, dijkstraCore, dijkstraFuel, dijkstraLoop, popMin,
      relaxStep, reconstruct_path, reconstructGo, alookup, aset, List.filter, List.map,
      c2Graph, e2]
  · decide

/-- C3: the claim states that the final-index step applies the last location's
visit effects only if it has not already been visited. The code calls
`_visit_star` unconditionally (its comment says "si no se ha procesado" but
there is no check), so on route `[1, 2]` the second step re-applies star 2's
visit effects: the audit log shows two entries for star 2 and its life delta
of −2 is charged twice (1000 − 5 − 2 − 2 = 991). -/
theorem c3_final_visit_repeated :
    (mkSimulator c3Graph c1Donkey [1, 2]).map
        (fun s => (s.step.bind Simulator.step).map
          (fun t => (t.state.stars_log.map (fun en => en.star), t.state.life_remaining,
                     t.state.finished))) =
      some (Except.ok ([2, 2], 991, true)) := by
  norm_num +decide [mkSimulator, Simulator.step, Simulator.arrive, Simulator.consume_movement, Simulator.visit_star,
    Simulator.apply_hypergiant, Simulator.log_event, Donkey.update_health_by_energy,
    Donkey.apply_health_modifier, Donkey.energy_gain_per_kg, dijkstra, dijkstraCore,
    dijkstraFuel, dijkstraLoop, popMin, relaxStep, reconstruct_path, reconstructGo,
    alookup, aset, rmax, rmin, Except.map, Option.map, Except.bind, Option.bind,
    List.map, c3Graph, c1Donkey, e2]

/-- C4 counterexample: on `c4Graph` the first step leaves the agent's health
at the terminal label `"Muerto"` (star 2's override) with the simulator still
live, and the second step's visit to star 3 (override `"Excelente"`) returns
the health to a live label — the dead label is reversed by a subsequent
simulator operation, refuting the claim as stated. -/
theorem c4_dead_reversal :
    (mkSimulator c4Graph c1Donkey [1, 2, 3]).map
        (fun s => s.step.map (fun t => (t.donkey.salud, t.state.dead))) =
      some (Except.ok ("Muerto", false)) ∧
    (mkSimulator c4Graph c1Donkey [1, 2, 3]).map
        (fun s => (s.step.bind Simulator.step).map (fun t => t.donkey.salud)) =
      some (Except.ok "Excelente") := by
  constructor
  · norm_num +decide [mkSimulator, Simulator.step, Simulator.arrive, Simulator.consume_movement, Simulator.visit_star,
    Simulator.apply_hypergiant, Simulator.log_event, Donkey.update_health_by_energy,
    Donkey.apply_health_modifier, Donkey.energy_gain_per_kg, dijkstra, dijkstraCore,
    dijkstraFuel, dijkstraLoop, popMin, relaxStep, reconstruct_path, reconstructGo,
    alookup, aset, rmax, rmin, Except.map, Option.map, Except.bind, Option.bind,
    List.map, c4Graph, c1Donkey, e2]
  · norm_num +decide [mkSimulator, Simulator.step, Simulator.arrive, Simulator.consume_movement, Simulator.visit_star,
    Simulator.apply_hypergiant, Simulator.log_event, Donkey.update_health_by_energy,
    Donkey.apply_health_modifier, Donkey.energy_gain_per_kg, dijkstra, dijkstraCore,
    dijkstraFuel, dijkstraLoop, popMin, relaxStep, reconstruct_path, reconstructGo,
    alookup, aset, rmax, rmin, Except.map, Option.map, Except.bind, Option.bind,
    List.map, c4Graph, c1Donkey, e2]

/-- C4 (amended): the dead health label is terminal under energy-based health
re-derivation, movement consumption, super-node recharge, and visit effects
whose location carries no health-label override; only a location's explicit
health-label override can return a dead health label to a live one. -/
theorem c4_dead_terminal_amended :
    (∀ d : Donkey, d.salud = "Muerto" → d.update_health_by_energy.salud = "Muerto") ∧
    (∀ (s : Simulator) (dist : Rat), s.donkey.salud = "Muerto" →
      (s.consume_movement dist).donkey.salud = "Muerto") ∧
    (∀ (s : Simulator) (sid : Nat), (s.apply_hypergiant sid).donkey = s.donkey) ∧
    (∀ (s : Simulator) (sid : Nat) (st : Star), alookup s.graph.stars sid = some st →
      st.health_modifier = none → s.donkey.salud = "Muerto" →
      (s.visit_star sid).donkey.salud = "Muerto") := by
  refine ⟨?_, ?_, ?_, ?_⟩
  · intro d h
    exact update_health_salud_of h
  · intro s dist h
    exact consume_movement_salud_muerto s dist h
  · intro s sid
    exact apply_hypergiant_donkey s sid
  · intro s sid st hl hm h
    exact visit_star_donkey_muerto s sid st hl hm h

/-- C4 witness: the amended statement applied at concrete inputs. -/
theorem c4_witness :
    (({ salud := "Muerto", energia_pct := 80, pasto_kg := 0, edad := 0,
        vida_maxima := 10 } : Donkey)).update_health_by_energy.salud = "Muerto" ∧
    (c5Sim.apply_hypergiant 1).donkey = c5Sim.donkey := by
  constructor
  · exact c4_dead_terminal_amended.1 _ rfl
  · exact c4_dead_terminal_amended.2.2.1 c5Sim 1

theorem syncLinks_adjacency (g : Graph) (a b : Nat) (val : Bool) :
    (syncLinks g a b val).adjacency = g.adjacency := by
  unfold syncLinks
  split <;> rfl

theorem toggleApply_miss (g : Graph) (a b : Nat) (bl : Option Bool)
    (h : lookupEdge g a b = none) : toggleApply g a b bl = (g, false) := by
  unfold lookupEdge at h
  unfold toggleApply
  split
  · rfl
  · rename_i nbrs h1
    rw [h1] at h
    simp only [Option.some_bind] at h
    split
    · rfl
    · rename_i edge h2
      rw [h2] at h
      cases h

theorem toggleApply_lookup_ne (g : Graph) (a b : Nat) (bl : Option Bool) (c : Nat)
    (hc : c ≠ a) :
    alookup (toggleApply g a b bl).1.adjacency c = alookup g.adjacency c := by
  unfold toggleApply
  split
  · rfl
  · split
    · rfl
    · simp only [syncLinks_adjacency]
      exact alookup_aset_ne _ _ _ _ hc

theorem toggleApply_lookup_self (g : Graph) (a b : Nat) (bl : Option Bool) (e : Edge)
    (he : lookupEdge g a b = some e) :
    lookupEdge (toggleApply g a b bl).1 a b =
      some { e with blocked := match bl with | none => !e.blocked | some bv => bv } := by
  unfold lookupEdge at he
  cases h1 : alookup g.adjacency a with
  | none =>
    rw [h1] at he
    cases he
  | some nbrs =>
    rw [h1] at he
    simp only [Option.some_bind] at he
    unfold toggleApply
    simp only [h1, he]
    unfold lookupEdge
    simp only [syncLinks_adjacency]
    rw [alookup_aset_self]
    simp only [Option.some_bind]
    rw [alookup_aset_self]

theorem toggleApply_snd (g : Graph) (a b : Nat) (bv : Bool) :
    (toggleApply g a b (some bv)).2 = true ↔
      ∃ e, lookupEdge g a b = some e ∧ e.blocked ≠ bv := by
  unfold toggleApply
  split
  · rename_i h1
    unfold lookupEdge
    rw [h1]
    simp
  · rename_i nbrs h1
    split
    · rename_i h2
      unfold lookupEdge
      rw [h1]
      simp [h2]
    · rename_i edge h2
      unfold lookupEdge
      rw [h1]
      simp only [Option.some_bind, h2]
      constructor
      · intro h
        exact ⟨edge, rfl, by simpa [bne_iff_ne] using h⟩
      · intro h
        obtain ⟨e, he, hne⟩ := h
        injection he with he
        subst he
        simpa [bne_iff_ne] using hne

theorem addRev_adjacency (g : Graph) (u v : Nat) (e : Edge) (db : Bool) :
    (addReverseIfMissing g u v e db).adjacency = g.adjacency ∨
    (addReverseIfMissing g u v e db).adjacency =
      aset g.adjacency v (((alookup g.adjacency v).getD []) ++
        [(u, (⟨v, u, e.distance, e.blocked || db⟩ : Edge))]) := by
  simp only [addReverseIfMissing]
  split
  · left
    rfl
  · split
    · right
      rfl
    · right
      rfl

theorem addRev_mono (g : Graph) (u v : Nat) (e : Edge) (db : Bool) (a b : Nat)
    (h : hasEdge g a b) : hasEdge (addReverseIfMissing g u v e db) a b := by
  obtain ⟨e0, he0⟩ := h
  unfold lookupEdge at he0
  rcases addRev_adjacency g u v e db with hadj | hadj
  · exact ⟨e0, by unfold lookupEdge; rw [hadj]; exact he0⟩
  · unfold hasEdge lookupEdge
    rw [hadj]
    by_cases hav : a = v
    · subst hav
      rw [alookup_aset_self]
      simp only [Option.some_bind]
      cases hadj2 : alookup g.adjacency a with
      | none =>
        rw [hadj2] at he0
        simp at he0
      | some l =>
        rw [hadj2] at he0
        simp only [Option.some_bind] at he0
        refine ⟨e0, ?_⟩
        simp only [Option.getD_some]
        exact alookup_append_of_isSome _ _ _ he0
    · rw [alookup_aset_ne _ _ _ _ hav]
      exact ⟨e0, he0⟩

theorem addRev_ensures (g : Graph) (u v : Nat) (e : Edge) (db : Bool) :
    hasEdge (addReverseIfMissing g u v e db) v u := by
  simp only [addReverseIfMissing]
  split
  · rename_i e1 hrev
    cases hadj : alookup g.adjacency v with
    | none =>
      rw [hadj] at hrev
      simp [alookup] at hrev
    | some l =>
      rw [hadj] at hrev
      simp only [Option.getD_some] at hrev
      refine ⟨e1, ?_⟩
      unfold lookupEdge
      rw [hadj]
      simp only [Option.some_bind]
      exact hrev
  · rename_i hrev
    have hkey : alookup (((alookup g.adjacency v).getD []) ++
        [(u, (⟨v, u, e.distance, e.blocked || db⟩ : Edge))]) u =
        some (⟨v, u, e.distance, e.blocked || db⟩ : Edge) := by
      rw [alookup_append_of_none _ _ _ hrev]
      simp [alookup]
    split
    · refine ⟨(⟨v, u, e.distance, e.blocked || db⟩ : Edge), ?_⟩
      unfold lookupEdge
      simp only
      rw [alookup_aset_self]
      simp only [Option.some_bind]
      exact hkey
    · refine ⟨(⟨v, u, e.distance, e.blocked || db⟩ : Edge), ?_⟩
      unfold lookupEdge
      simp only
      rw [alookup_aset_self]
      simp only [Option.some_bind]
      exact hkey

theorem addRev_noop (g : Graph) (u v : Nat) (e : Edge) (db : Bool)
    (h : hasEdge g v u) : addReverseIfMissing g u v e db = g := by
  obtain ⟨e0, he0⟩ := h
  unfold lookupEdge at he0
  cases hadj : alookup g.adjacency v with
  | none =>
    rw [hadj] at he0
    simp at he0
  | some l =>
    rw [hadj] at he0
    simp only [Option.some_bind] at he0
    have hrev : alookup ((alookup g.adjacency v).getD []) u = some e0 := by
      rw [hadj]
      simp only [Option.getD_some]
      exact he0
    simp only [addReverseIfMissing, hrev]

theorem addRev_new (g : Graph) (u v : Nat) (e : Edge) (db : Bool) (a b : Nat)
    (h : hasEdge (addReverseIfMissing g u v e db) a b) :
    hasEdge g a b ∨ (a = v ∧ b = u) := by
  obtain ⟨e0, he0⟩ := h
  unfold lookupEdge at he0
  rcases addRev_adjacency g u v e db with hadj | hadj
  · rw [hadj] at he0
    exact Or.inl ⟨e0, he0⟩
  · rw [hadj] at he0
    by_cases hav : a = v
    · subst hav
      rw [alookup_aset_self] at he0
      simp only [Option.some_bind] at he0
      cases hrb : alookup ((alookup g.adjacency a).getD []) b with
      | some e1 =>
        left
        cases hadj2 : alookup g.adjacency a with
        | none =>
          rw [hadj2] at hrb
          simp [alookup] at hrb
        | some l =>
          rw [hadj2] at hrb
          simp only [Option.getD_some] at hrb
          refine ⟨e1, ?_⟩
          unfold lookupEdge
          rw [hadj2]
          simp only [Option.some_bind]
          exact hrb
      | none =>
        rw [alookup_append_of_none _ _ _ hrb] at he0
        by_cases hbu : b = u
        · exact Or.inr ⟨rfl, hbu⟩
        · simp [alookup, hbu] at he0
    · rw [alookup_aset_ne _ _ _ _ hav] at he0
      exact Or.inl ⟨e0, he0⟩

theorem processNeighbors_mono (db : Bool) (u : Nat) :
    ∀ (L : List (Nat × Edge)) (g : Graph) (a b : Nat), hasEdge g a b →
      hasEdge (processNeighbors db u g L) a b := by
  intro L
  induction L with
  | nil =>
    intro g a b h
    exact h
  | cons q rest ih =>
    intro g a b h
    simp only [processNeighbors, List.foldl_cons]
    exact ih (addReverseIfMissing g u q.1 q.2 db) a b (addRev_mono g u q.1 q.2 db a b h)

theorem processNeighbors_ensures (db : Bool) (u : Nat) :
    ∀ (L : List (Nat × Edge)) (g : Graph) (p : Nat × Edge), p ∈ L →
      hasEdge (processNeighbors db u g L) p.1 u := by
  intro L
  induction L with
  | nil =>
    intro g p hp
    simp at hp
  | cons q rest ih =>
    intro g p hp
    simp only [processNeighbors, List.foldl_cons]
    rcases List.mem_cons.mp hp with hp | hp
    · subst hp
      exact processNeighbors_mono db u rest _ p.1 u (addRev_ensures g u p.1 p.2 db)
    · exact ih _ p hp

theorem processNeighbors_noop (db : Bool) (u : Nat) :
    ∀ (L : List (Nat × Edge)) (g : Graph), (∀ p ∈ L, hasEdge g p.1 u) →
      processNeighbors db u g L = g := by
  intro L
  induction L with
  | nil =>
    intro g _
    rfl
  | cons q rest ih =>
    intro g h
    have hq := h q (List.mem_cons_self _ _)
    simp only [processNeighbors, List.foldl_cons, addRev_noop g u q.1 q.2 db hq]
    exact ih g (fun p hp => h p (List.mem_cons_of_mem _ hp))

theorem processNeighbors_new (db : Bool) (u : Nat) :
    ∀ (L : List (Nat × Edge)) (g : Graph) (a b : Nat),
      hasEdge (processNeighbors db u g L) a b →
      hasEdge g a b ∨ (b = u ∧ ∃ e, (a, e) ∈ L) := by
  intro L
  induction L with
  | nil =>
    intro g a b h
    exact Or.inl h
  | cons q rest ih =>
    intro g a b h
    simp only [processNeighbors, List.foldl_cons] at h
    rcases ih _ a b h with h2 | h2
    · rcases addRev_new g u q.1 q.2 db a b h2 with h3 | h3
      · exact Or.inl h3
      · right
        refine ⟨h3.2, q.2, ?_⟩
        rw [h3.1, Prod.mk.eta]
        exact List.mem_cons_self _ _
    · obtain ⟨hbu, e1, he1⟩ := h2
      exact Or.inr ⟨hbu, e1, List.mem_cons_of_mem _ he1⟩

theorem ebLoop_symm (db : Bool) :
    ∀ (keys : List Nat) (g : Graph),
      (∀ a b, hasEdge g a b → hasEdge g b a ∨ a ∈ keys) →
      ∀ a b, hasEdge (ebLoop db keys g) a b → hasEdge (ebLoop db keys g) b a := by
  intro keys
  induction keys with
  | nil =>
    intro g hinv a b h
    rcases hinv a b h with h2 | h2
    · exact h2
    · simp at h2
  | cons u rest ih =>
    intro g hinv a b
    simp only [ebLoop, List.foldl_cons]
    apply ih (processNeighbors db u g ((alookup g.adjacency u).getD []))
    intro a2 b2 h2
    rcases processNeighbors_new db u _ g a2 b2 h2 with h3 | h3
    · rcases hinv a2 b2 h3 with h4 | h4
      · left
        exact processNeighbors_mono db u _ g b2 a2 h4
      · rcases List.mem_cons.mp h4 with h5 | h5
        · subst h5
          obtain ⟨e3, he3⟩ := h3
          left
          apply processNeighbors_ensures db a2 _ g (b2, e3)
          unfold lookupEdge at he3
          cases hadj : alookup g.adjacency a2 with
          | none =>
            rw [hadj] at he3
            simp at he3
          | some l =>
            rw [hadj] at he3
            simp only [Option.some_bind] at he3
            simp only [Option.getD_some]
            exact mem_of_alookup_eq_some he3
        · exact Or.inr h5
    · obtain ⟨hb2, e3, he3⟩ := h3
      subst hb2
      left
      cases hadj : alookup g.adjacency b2 with
      | none =>
        simp [hadj] at he3
      | some l =>
        simp only [hadj, Option.getD_some] at he3
        have hsome := alookup_isSome_of_mem he3
        obtain ⟨e4, he4⟩ := Option.isSome_iff_exists.mp hsome
        have hg : hasEdge g b2 a2 := by
          refine ⟨e4, ?_⟩
          unfold lookupEdge
          rw [hadj]
          simp only [Option.some_bind]
          exact he4
        exact processNeighbors_mono db b2 _ g b2 a2 hg

theorem ebLoop_noop (db : Bool) :
    ∀ (keys : List Nat) (g : Graph), (∀ a b, hasEdge g a b → hasEdge g b a) →
      ebLoop db keys g = g := by
  intro keys
  induction keys with
  | nil =>
    intro g _
    rfl
  | cons u rest ih =>
    intro g h
    have hpn : processNeighbors db u g ((alookup g.adjacency u).getD []) = g := by
      apply processNeighbors_noop
      intro p hp
      obtain ⟨p1, pe⟩ := p
      apply h
      cases hadj : alookup g.adjacency u with
      | none =>
        rw [hadj] at hp
        simp at hp
      | some l =>
        rw [hadj] at hp
        simp only [Option.getD_some] at hp
        have hsome := alookup_isSome_of_mem hp
        obtain ⟨e4, he4⟩ := Option.isSome_iff_exists.mp hsome
        refine ⟨e4, ?_⟩
        unfold lookupEdge
        rw [hadj]
        simp only [Option.some_bind]
        exact he4
    simp only [ebLoop, List.foldl_cons, hpn]
    exact ih g h

theorem ensure_bidirectional_symm (g : Graph) (db : Bool) :
    ∀ a b, hasEdge (g.ensure_bidirectional db) a b →
      hasEdge (g.ensure_bidirectional db) b a := by
  unfold Graph.ensure_bidirectional
  apply ebLoop_symm
  intro a b h
  right
  obtain ⟨e0, he0⟩ := h
  unfold lookupEdge at he0
  cases hadj : alookup g.adjacency a with
  | none =>
    rw [hadj] at he0
    simp at he0
  | some l => exact mem_keys_of_alookup_eq_some hadj

/-- C8: `ensure_bidirectional` is idempotent — after one call every directed
adjacency entry has its mirror, so the second call adds no reverse entry,
performs no `Star.add_link`, and returns the graph (adjacency, blocked
flags, weights and per-star link lists) unchanged. -/
theorem c8_ensure_bidirectional_idem (g : Graph) (db : Bool) :
    (g.ensure_bidirectional db).ensure_bidirectional db = g.ensure_bidirectional db := by
  have hsymm := ensure_bidirectional_symm g db
  unfold Graph.ensure_bidirectional
  apply ebLoop_noop
  intro a b h
  exact hsymm a b h

/-- C10: with an explicit flag, `toggle_edge_block(u, v, blocked)` returns
true iff at least one of the directed edges (u,v), (v,u) exists and its
blocked flag actually changes; and when only (u,v) is present, only it is
updated — the absent mirror (v,u) is not created. -/
theorem c10_toggle_edge_block (g : Graph) (u v : Nat) (b : Bool) :
    ((g.toggle_edge_block u v (some b)).2 = true ↔
      (∃ e, lookupEdge g u v = some e ∧ e.blocked ≠ b) ∨
      (∃ e, lookupEdge g v u = some e ∧ e.blocked ≠ b)) ∧
    (∀ e, lookupEdge g u v = some e → lookupEdge g v u = none →
      lookupEdge (g.toggle_edge_block u v (some b)).1 u v =
        some { e with blocked := b } ∧
      lookupEdge (g.toggle_edge_block u v (some b)).1 v u = none) := by
  constructor
  · unfold Graph.toggle_edge_block
    simp only [Bool.or_eq_true]
    by_cases huv : u = v
    · subst huv
      by_cases hoo : ∃ e, lookupEdge g u u = some e
      · obtain ⟨e, he⟩ := hoo
        have hself := toggleApply_lookup_self g u u (some b) e he
        constructor
        · intro h
          rcases h with h | h
          · left
            exact (toggleApply_snd g u u b).mp h
          · obtain ⟨e2, he2, hne2⟩ := (toggleApply_snd _ u u b).mp h
            rw [hself] at he2
            injection he2 with he2
            subst he2
            exact absurd rfl hne2
        · intro h
          left
          apply (toggleApply_snd g u u b).mpr
          rcases h with h | h <;> exact h
      · have hnone : lookupEdge g u u = none := by
          cases hc : lookupEdge g u u with
          | none => rfl
          | some e => exact absurd ⟨e, hc⟩ hoo
        rw [toggleApply_miss g u u (some b) hnone]
        simp only
        rw [toggleApply_miss g u u (some b) hnone]
        simp [hnone]
    · have hl2 : lookupEdge (toggleApply g u v (some b)).1 v u = lookupEdge g v u := by
        unfold lookupEdge
        rw [toggleApply_lookup_ne g u v (some b) v (fun hh => huv hh.symm)]
      constructor
      · intro h
        rcases h with h | h
        · left
          exact (toggleApply_snd g u v b).mp h
        · right
          obtain ⟨e2, he2, hne2⟩ := (toggleApply_snd _ v u b).mp h
          rw [hl2] at he2
          exact ⟨e2, he2, hne2⟩
      · intro h
        rcases h with h | h
        · left
          exact (toggleApply_snd g u v b).mpr h
        · right
          apply (toggleApply_snd _ v u b).mpr
          rw [hl2]
          exact h
  · intro e he hnone
    by_cases huv : u = v
    · subst huv
      rw [he] at hnone
      cases hnone
    · unfold Graph.toggle_edge_block
      simp only
      have h1self := toggleApply_lookup_self g u v (some b) e he
      have hl2 : lookupEdge (toggleApply g u v (some b)).1 v u = lookupEdge g v u := by
        unfold lookupEdge
        rw [toggleApply_lookup_ne g u v (some b) v (fun hh => huv hh.symm)]
      have hmiss : toggleApply (toggleApply g u v (some b)).1 v u (some b) =
          ((toggleApply g u v (some b)).1, false) :=
        toggleApply_miss _ v u (some b) (by rw [hl2]; exact hnone)
      constructor
      · rw [hmiss]
        exact h1self
      · rw [hmiss]
        simp only
        rw [hl2]
        exact hnone

/-- C10 witness: applied to the graph holding only the directed edge (1,2)
with `blocked = false`, setting `blocked := false` (no change, returns false)
and the mirror staying absent, plus the true-return on an actual change. -/
theorem c10_witness :
    ((c10Graph.toggle_edge_block 1 2 (some false)).2 = true ↔
      (∃ e, lookupEdge c10Graph 1 2 = some e ∧ e.blocked ≠ false) ∨
      (∃ e, lookupEdge c10Graph 2 1 = some e ∧ e.blocked ≠ false)) ∧
    lookupEdge (c10Graph.toggle_edge_block 1 2 (some false)).1 1 2 =
      some { e2 1 2 9 with blocked := false } ∧
    lookupEdge (c10Graph.toggle_edge_block 1 2 (some false)).1 2 1 = none := by
  have h := c10_toggle_edge_block c10Graph 1 2 false
  have h2 := h.2 (e2 1 2 9) (by decide) (by decide)
  exact ⟨h.1, h2.1, h2.2⟩

/-- Every adjacency entry of the graph carries a non-negative distance. -/
def EdgesNonneg (g : Graph) : Prop :=
  ∀ p ∈ g.adjacency, ∀ q ∈ p.2, 0 ≤ q.2.distance

theorem relaxStep_inv (ib : Bool) (u : Nat) (d : Rat) (source : Nat) (hd : 0 ≤ d)
    (q : Nat × Edge) (hq : 0 ≤ q.2.distance)
    (dist : List (Nat × Rat)) (parent : List (Nat × Option Nat)) (pq : List (Rat × Nat))
    (h1 : ∀ r ∈ pq, 0 ≤ r.1) (h2 : ∀ p ∈ dist, 0 ≤ p.2)
    (h3 : alookup dist source = some 0) :
    (∀ r ∈ (relaxStep ib u d (dist, parent, pq) q).2.2, 0 ≤ r.1) ∧
    (∀ p ∈ (relaxStep ib u d (dist, parent, pq) q).1, 0 ≤ p.2) ∧
    alookup (relaxStep ib u d (dist, parent, pq) q).1 source = some 0 := by
  have hnd : 0 ≤ d + q.2.distance := add_nonneg hd hq
  have hupd : (∀ r ∈ pq ++ [(d + q.2.distance, q.1)], 0 ≤ r.1) ∧
      (∀ p ∈ aset dist q.1 (d + q.2.distance), 0 ≤ p.2) := by
    constructor
    · intro r hr
      rcases List.mem_append.mp hr with hr | hr
      · exact h1 r hr
      · rw [List.mem_singleton] at hr
        subst hr
        exact hnd
    · intro p hp
      rcases mem_aset hp with hp | hp
      · exact h2 p hp
      · subst hp
        exact hnd
  unfold relaxStep
  simp only
  split
  · exact ⟨h1, h2, h3⟩
  · split
    · rename_i dv hdv
      split
      · rename_i hlt
        refine ⟨hupd.1, hupd.2, ?_⟩
        by_cases hsrc : q.1 = source
        · subst hsrc
          rw [h3] at hdv
          cases hdv
          exact absurd hlt (not_lt.mpr hnd)
        · rw [alookup_aset_ne dist q.1 source _ (fun hh => hsrc hh.symm)]
          exact h3
      · exact ⟨h1, h2, h3⟩
    · rename_i hdv
      refine ⟨hupd.1, hupd.2, ?_⟩
      have hsrc : q.1 ≠ source := by
        intro hh
        rw [hh, h3] at hdv
        cases hdv
      rw [alookup_aset_ne dist q.1 source _ (fun hh => hsrc hh.symm)]
      exact h3

theorem relax_fold_inv (ib : Bool) (u : Nat) (d : Rat) (source : Nat) (hd : 0 ≤ d) :
    ∀ (nbrs : List (Nat × Edge)), (∀ q ∈ nbrs, 0 ≤ q.2.distance) →
    ∀ (dist : List (Nat × Rat)) (parent : List (Nat × Option Nat)) (pq : List (Rat × Nat)),
    (∀ r ∈ pq, 0 ≤ r.1) → (∀ p ∈ dist, 0 ≤ p.2) → alookup dist source = some 0 →
    (∀ r ∈ (nbrs.foldl (relaxStep ib u d) (dist, parent, pq)).2.2, 0 ≤ r.1) ∧
    (∀ p ∈ (nbrs.foldl (relaxStep ib u d) (dist, parent, pq)).1, 0 ≤ p.2) ∧
    alookup (nbrs.foldl (relaxStep ib u d) (dist, parent, pq)).1 source = some 0 := by
  intro nbrs
  induction nbrs with
  | nil =>
    intro _ dist parent pq h1 h2 h3
    exact ⟨h1, h2, h3⟩
  | cons q rest ih =>
    intro hn dist parent pq h1 h2 h3
    have hq : 0 ≤ q.2.distance := hn q (List.mem_cons_self _ _)
    have hrest : ∀ r ∈ rest, 0 ≤ r.2.distance :=
      fun r hr => hn r (List.mem_cons_of_mem _ hr)
    have hstep := relaxStep_inv ib u d source hd q hq dist parent pq h1 h2 h3
    simp only [List.foldl_cons]
    obtain ⟨a1, a2, a3⟩ := hstep
    have := ih hrest (relaxStep ib u d (dist, parent, pq) q).1
      (relaxStep ib u d (dist, parent, pq) q).2.1
      (relaxStep ib u d (dist, parent, pq) q).2.2 a1 a2 a3
    exact this

theorem dijkstraLoop_inv (g : Graph) (ib : Bool) (source : Nat) (hw : EdgesNonneg g) :
    ∀ (fuel : Nat) (pq : List (Rat × Nat)) (dist : List (Nat × Rat))
      (parent : List (Nat × Option Nat)),
    (∀ r ∈ pq, 0 ≤ r.1) → (∀ p ∈ dist, 0 ≤ p.2) → alookup dist source = some 0 →
    alookup (dijkstraLoop g ib fuel pq dist parent).1 source = some 0 ∧
    ∀ p ∈ (dijkstraLoop g ib fuel pq dist parent).1, 0 ≤ p.2 := by
  intro fuel
  induction fuel with
  | zero =>
    intro pq dist parent h1 h2 h3
    exact ⟨h3, h2⟩
  | succ fuel ih =>
    intro pq dist parent h1 h2 h3
    have hnbrs : ∀ x : Rat × Nat, ∀ q ∈ (alookup g.adjacency x.2).getD [], 0 ≤ q.2.distance := by
      intro x q hq
      cases hadj : alookup g.adjacency x.2 with
      | none =>
        rw [hadj] at hq
        simp at hq
      | some l =>
        rw [hadj] at hq
        simp at hq
        exact hw (x.2, l) (mem_of_alookup_eq_some hadj) q hq
    simp only [dijkstraLoop]
    split
    · exact ⟨h3, h2⟩
    · rename_i x pq2 hpop
      have hx : 0 ≤ x.1 := h1 x (popMin_mem hpop)
      have h1b : ∀ r ∈ pq2, 0 ≤ r.1 := fun r hr => h1 r (popMin_rest_mem hpop r hr)
      have hrel := relax_fold_inv ib x.2 x.1 source hx
        ((alookup g.adjacency x.2).getD []) (hnbrs x) dist parent pq2 h1b h2 h3
      split
      · split
        · exact ih pq2 dist parent h1b h2 h3
        · exact ih _ _ _ hrel.1 hrel.2.1 hrel.2.2
      · exact ih _ _ _ hrel.1 hrel.2.1 hrel.2.2

/-- C7: for every graph with non-negative edge weights and every source
present among the stars, `dijkstra` returns (no exception) a distance map
with `distance[source] = 0` and only non-negative distances; unreachable
locations are simply absent from the map. -/
theorem c7_dijkstra_nonneg (g : Graph) (source : Nat) (ib : Bool)
    (hw : EdgesNonneg g) (hs : (alookup g.stars source).isSome = true) :
    ∃ dist parent, dijkstra g source ib = Except.ok (dist, parent) ∧
      alookup dist source = some 0 ∧ ∀ p ∈ dist, 0 ≤ p.2 := by
  have h := dijkstraLoop_inv g ib source hw (dijkstraFuel g) [(0, source)]
    [(source, 0)] [(source, none)]
    (by intro r hr; rw [List.mem_singleton] at hr; subst hr; exact le_refl 0)
    (by intro p hp; rw [List.mem_singleton] at hp; subst hp; exact le_refl 0)
    (by simp [alookup])
  refine ⟨(dijkstraCore g ib source).1, (dijkstraCore g ib source).2, ?_, h.1, h.2⟩
  unfold dijkstra
  rw [if_pos hs]

/-- C7 witness: the statement applied to the concrete graph with stars 1,2,3,
an edge 1-2 of weight 4, and star 3 unreachable. -/
theorem c7_witness :
    ∃ dist parent, dijkstra c7Graph 1 false = Except.ok (dist, parent) ∧
      alookup dist 1 = some 0 ∧ ∀ p ∈ dist, 0 ≤ p.2 :=
  c7_dijkstra_nonneg c7Graph 1 false (by unfold EdgesNonneg; decide) (by decide)

/-- C5: when the next planned location is unreachable from the current one
(every connecting path blocked), a live mid-route `step()` returns normally
(no exception), sets `finished`, appends a `blocked_route` event, and leaves
the position, route index, energy, resource, and life quantities unchanged. -/
theorem c5_blocked_step (s : Simulator)
    (hf : s.state.finished = false) (hd : s.state.dead = false)
    (hidx : s.index + 1 < s.route.length)
    (hsrc : (alookup s.graph.stars (s.route.getD s.index 0)).isSome = true)
    (hun : alookup (dijkstraCore s.graph false (s.route.getD s.index 0)).1
      (s.route.getD (s.index + 1) 0) = none) :
    ∃ s2 : Simulator, s.step = Except.ok s2 ∧
      s2.state.finished = true ∧
      s2.state.dead = false ∧
      s2.state.current_star = s.state.current_star ∧
      s2.index = s.index ∧
      s2.state.energy_pct = s.state.energy_pct ∧
      s2.state.pasto_kg = s.state.pasto_kg ∧
      s2.state.life_remaining = s.state.life_remaining ∧
      ∃ en : LogEvent, s2.log = s.log ++ [en] ∧ en.event = "blocked_route" := by
  have hdij : dijkstra s.graph (s.route.getD s.index 0) false =
      Except.ok (dijkstraCore s.graph false (s.route.getD s.index 0)) := by
    unfold dijkstra
    rw [if_pos hsrc]
  have hstep : s.step = Except.ok
      (Simulator.log_event { s with state := { s.state with finished := true } }
        "blocked_route" (s.route.getD s.index 0) none) := by
    simp only [Simulator.step]
    rw [if_neg (by simp [hf, hd]), if_neg (by omega)]
    rw [hdij]
    simp only [hun]
  refine ⟨_, hstep, rfl, hd, rfl, rfl, rfl, rfl, rfl, ⟨_, rfl, rfl⟩⟩

/-- C5 witness: the blocked-step statement applied to the concrete simulator
on the two-star graph whose only edge is blocked in both directions. -/
theorem c5_witness :
    ∃ s2 : Simulator, c5Sim.step = Except.ok s2 ∧
      s2.state.finished = true ∧
      s2.state.dead = false ∧
      s2.state.current_star = c5Sim.state.current_star ∧
      s2.index = c5Sim.index ∧
      s2.state.energy_pct = c5Sim.state.energy_pct ∧
      s2.state.pasto_kg = c5Sim.state.pasto_kg ∧
      s2.state.life_remaining = c5Sim.state.life_remaining ∧
      ∃ en : LogEvent, s2.log = c5Sim.log ++ [en] ∧ en.event = "blocked_route" :=
  c5_blocked_step c5Sim rfl rfl (by decide) (by decide) (by decide)

/-- `c5Sim` is exactly what `Simulator.__init__` builds on its inputs. -/
theorem c5Sim_eq : mkSimulator c5Graph c1Donkey [1, 2] = some c5Sim := by
  norm_num [mkSimulator, rmax, c5Graph, c1Donkey, c5Sim, e2]

/-- C6: in every state the simulator records (initial state, every `step`
outcome, every teleport), `energy_pct` and `life_remaining` are non-negative:
construction from an agent with non-negative energy establishes the invariant
and `step` / `teleport_and_visit` preserve it for the live state and every
event appended to the log. -/
theorem c6_nonneg_invariant :
    (∀ (g : Graph) (d : Donkey) (r : List Nat) (s : Simulator),
      0 ≤ d.energia_pct → mkSimulator g d r = some s → SimInv s) ∧
    (∀ s s2 : Simulator, SimInv s → s.step = Except.ok s2 → SimInv s2) ∧
    (∀ (s : Simulator) (dest : Nat), SimInv s → SimInv (s.teleport_and_visit dest)) := by
  refine ⟨?_, ?_, ?_⟩
  · intro g d r s hd hm
    exact mkSimulator_inv g d r s hd hm
  · intro s s2 h hs
    exact step_inv s s2 h hs
  · intro s dest h
    exact teleport_inv s dest h

/-- C6 witness: the invariant statement applied at concrete inputs — the
freshly built simulator on the blocked graph, its step result, and a
teleport from it. -/
theorem c6_witness :
    SimInv c5Sim ∧
    SimInv (Simulator.log_event
      { c5Sim with state := { c5Sim.state with finished := true } } "blocked_route" 1 none) ∧
    SimInv (c5Sim.teleport_and_visit 2) := by
  have h1 : SimInv c5Sim :=
    c6_nonneg_invariant.1 c5Graph c1Donkey [1, 2] c5Sim (by norm_num [c1Donkey]) c5Sim_eq
  refine ⟨h1, ?_, c6_nonneg_invariant.2.2 c5Sim 2 h1⟩
  apply c6_nonneg_invariant.2.1 c5Sim _ h1
  norm_num [Simulator.step, Simulator.log_event, dijkstra, dijkstraCore, dijkstraFuel,
    dijkstraLoop, popMin, relaxStep, alookup, aset, c5Sim, c5Graph, c1Donkey, e2]

/-- C9: the simulator is a pure function of the graph contents, the agent's
initial values and the planned sequence — two simulators constructed from
equal inputs produce equal event logs (with every before/after quantity) and
equal final states. -/
theorem c9_simulator_deterministic (g1 g2 : Graph) (d1 d2 : Donkey) (r1 r2 : List Nat)
    (hg : g1 = g2) (hd : d1 = d2) (hr : r1 = r2) :
    (mkSimulator g1 d1 r1).map (fun s => s.run_all.map
        (fun t => (t.log, t.state, t.state.stars_log))) =
      (mkSimulator g2 d2 r2).map (fun s => s.run_all.map
        (fun t => (t.log, t.state, t.state.stars_log))) := by
  subst hg
  subst hd
  subst hr
  rfl

/-- C9 witness: the determinism statement applied at a concrete input. -/
theorem c9_witness :
    (mkSimulator c1Graph c1Donkey [1, 2]).map (fun s => s.run_all.map
        (fun t => (t.log, t.state, t.state.stars_log))) =
      (mkSimulator c1Graph c1Donkey [1, 2]).map (fun s => s.run_all.map
        (fun t => (t.log, t.state, t.state.stars_log))) :=
  c9_simulator_deterministic c1Graph c1Graph c1Donkey c1Donkey [1, 2] [1, 2] rfl rfl rfl

end Constellations
